import Mathlib

/-!
Verification development for the cargo-expand pipeline (src/main.rs).

The Rust sources are shallowly embedded: pure functions become Lean
functions; every interaction with the outside world (subprocesses, the
file system, environment probes) is represented by an oracle record
whose fields carry the observable results the real system would have
produced, and the orchestrator is a pure function of that oracle.
-/

namespace CargoExpand

/-- Result type standing for Rust `io::Result` / the crate `error::Result`:
errors are carried as opaque message strings. -/
abbrev IOResult (α : Type) : Type := Except String α

/-! ### Character-list string primitives

Rust `str::starts_with`, `str::contains` and `str::replace` are modelled
on `List Char` (one entry per Unicode scalar, matching Rust `char`). -/

/-- `listStartsWith pat l` is true when `pat` is a prefix of `l`
(Rust `str::starts_with` on character sequences). -/
def listStartsWith : List Char → List Char → Bool
  | [], _ => true
  | _ :: _, [] => false
  | p :: ps, c :: cs => p == c && listStartsWith ps cs

/-- `listContains l pat` is true when `pat` occurs as a contiguous
subsequence of `l` (Rust `str::contains`). -/
def listContains : List Char → List Char → Bool
  | [], pat => pat.isEmpty
  | c :: rest, pat => listStartsWith pat (c :: rest) || listContains rest pat

/-- One left-to-right scan of Rust `str::replace`: when `skip` is positive
the characters belong to an occurrence that has already been replaced and
are dropped; at `skip = 0` an occurrence of `pat` starting at the current
character emits `rep` and schedules the rest of the occurrence for
skipping. -/
def replAux (pat rep : List Char) : Nat → List Char → List Char
  | _, [] => []
  | n + 1, _ :: rest => replAux pat rep n rest
  | 0, c :: rest =>
    if listStartsWith pat (c :: rest) then rep ++ replAux pat rep (pat.length - 1) rest
    else c :: replAux pat rep 0 rest

/-- Rust `str::replace pat -> rep` (all non-overlapping occurrences,
left to right). -/
def listReplace (pat rep l : List Char) : List Char := replAux pat rep 0 l

/-- Number of positions of `l` at which `pat` occurs. -/
def countOccur (pat : List Char) : List Char → Nat
  | [] => 0
  | c :: rest => (if listStartsWith pat (c :: rest) then 1 else 0) + countOccur pat rest

/-- `str::starts_with` lifted to `String`. -/
def strStartsWith (s pat : String) : Bool := listStartsWith pat.data s.data

/-- `str::contains` lifted to `String`. -/
def strContains (s pat : String) : Bool := listContains s.data pat.data

/-- `str::replace` lifted to `String`. -/
def strReplace (s pat rep : String) : String := ⟨listReplace pat.data rep.data s.data⟩

/-! ### Toolchain probe (`definitely_not_nightly`, `maybe_nightly`) -/

/-- Observable outcome of running `cargo --version` in
`definitely_not_nightly`: `none` models `cmd.output()` returning `Err`,
`some none` models stdout that is not valid UTF-8, and `some (some v)`
models a successfully decoded version string `v`. -/
structure ProbeEnv where
  versionOutput : Option (Option String)

/-- `definitely_not_nightly` from src/main.rs: true only when the version
subprocess succeeded, its stdout decoded, and the text starts with
"cargo 1" while not containing "nightly". -/
def definitely_not_nightly (env : ProbeEnv) : Bool :=
  match env.versionOutput with
  | none => false
  | some none => false
  | some (some version) =>
    strStartsWith version "cargo 1" && !(strContains version "nightly")

/-- `maybe_nightly` from src/main.rs. -/
def maybe_nightly (env : ProbeEnv) : Bool := !definitely_not_nightly env

/-! ### Diagnostic line filter (`ignore_cargo_err`) -/

/-- The fixed allow-list of substrings of `ignore_cargo_err`
(Rust string continuations joined as the compiler does). -/
def discarded_lines : List String :=
  [ "ignoring specified output filename because multiple outputs were requested"
  , "ignoring specified output filename for 'link' output because multiple outputs were requested"
  , "ignoring --out-dir flag due to -o flag"
  , "ignoring -C extra-filename flag due to -o flag"
  , "due to multiple output types requested, the explicitly specified output file name will be adapted for each output type"
  , "warning emitted"
  , "warnings emitted"
  , ") generated " ]

/-- Rust `char::is_whitespace` restricted to the characters that can
appear on a captured stderr line (space, tab, carriage return, newline). -/
def isWhitespaceChar (c : Char) : Bool :=
  c == ' ' || c == '\t' || c == '\r' || c == '\n'

/-- `line.trim().is_empty()`: the line is empty after trimming
whitespace, i.e. every character is whitespace. -/
def strBlank (line : String) : Bool := line.data.all isWhitespaceChar

/-- `ignore_cargo_err` from src/main.rs: drop blank lines and every line
containing one of the allow-listed substrings. -/
def ignore_cargo_err (line : String) : Bool :=
  if strBlank line then true
  else discarded_lines.any fun s => strContains line s

/-! ### Process runner (`filter_err`) -/

/-- Observable behaviour of the spawned toolchain child: the successive
results of `read_line` on its captured stderr (`Except.error` models an
I/O failure of a read), and the result of `wait` (`none` inside `ok`
models termination by signal, i.e. no exit code). -/
structure ChildProc where
  reads : List (IOResult String)
  waitCode : IOResult (Option Int)

/-- The `while let Ok(n) = stderr.read_line(..)` loop of `filter_err`:
lines are collected until end of stream or until the first read error,
which silently ends the loop. -/
def drainLines : List (IOResult String) → List String
  | [] => []
  | .error _ :: _ => []
  | .ok l :: rest => l :: drainLines rest

/-- `filter_err` from src/main.rs: propagate a spawn failure, drain the
child's stderr forwarding every line the predicate does not ignore,
propagate a wait failure, and default a signal death to exit code 1. -/
def filter_err (ignore : String → Bool) (spawn : IOResult ChildProc) :
    IOResult (List String × Int) := do
  let child ← spawn
  let fwd := (drainLines child.reads).filter fun l => !ignore l
  let status ← child.waitCode
  pure (fwd, status.getD 1)

/-! ### Reformatter stage -/

/-- The two `--edition` dialects the rustfmt fallback can request. -/
inductive Edition
  | e2018
  | e2015
deriving DecidableEq

/-- Observable outcome of one rustfmt invocation on the scratch file:
`spawnErr` models `Command::output()` / `Command::status()` returning
`Err` (the file is untouched); `ran success newContent` models a run that
terminated with exit-success flag `success`, leaving `newContent` in the
scratch file. -/
inductive FmtRes
  | spawnErr
  | ran (success : Bool) (newContent : String)
deriving DecidableEq

/-- The dialect-fallback block of `cargo_expand` (src/main.rs lines
211-225): invoke rustfmt with `--edition=2018`; only when that invocation
ran and exited unsuccessfully, invoke it once more with `--edition=2015`,
ignoring that second result. Returns the scratch-file content after the
attempts together with the list of editions requested. -/
def runFmtAttempts (fmt : Edition → String → FmtRes) (content : String) :
    String × List Edition :=
  match fmt Edition.e2018 content with
  | .spawnErr => (content, [Edition.e2018])
  | .ran true c1 => (c1, [Edition.e2018])
  | .ran false c1 =>
    match fmt Edition.e2015 c1 with
    | .spawnErr => (c1, [Edition.e2018, Edition.e2015])
    | .ran _ c2 => (c2, [Edition.e2018, Edition.e2015])

/-! ### Orchestrator (`cargo_expand`) -/

/-- The fields of the parsed `Args` record consumed by the control flow
modelled here. The remaining fields (profile, features, target selection,
color, theme, ...) only feed the assembled cargo command line and the
presenter and do not affect any modelled observable. -/
structure Args where
  themes : Bool
  item : Option String
  ugly : Bool

/-- `syn::File`: shebang, file-level attributes, top-level items.
Items and attributes are kept abstract as their printed text. -/
structure SynFile where
  shebang : Option String
  attrs : List String
  items : List String
deriving DecidableEq

/-- The stand-in identifier `DOLLAR_CRATE_PLACEHOLDER` of src/main.rs. -/
def DOLLAR_CRATE_PLACEHOLDER : String := "Ξcrate"

/-- `content.replace("$crate", DOLLAR_CRATE_PLACEHOLDER)` (line 187). -/
def substituteCrate (content : String) : String :=
  strReplace content "$crate" DOLLAR_CRATE_PLACEHOLDER

/-- `content.replace(DOLLAR_CRATE_PLACEHOLDER, "$crate")` (line 228). -/
def restoreCrate (content : String) : String :=
  strReplace content DOLLAR_CRATE_PLACEHOLDER "$crate"

/-- Oracle for every external effect `cargo_expand` performs, in program
order.  Function-valued fields model external computations whose results
depend on the data passed to them. -/
structure World where
  args : Args
  /-- Result of `which_rustfmt()`. -/
  which_rustfmt : Option String
  /-- Spawning the cargo child inside `filter_err`. -/
  cargoSpawn : IOResult ChildProc
  /-- `outfile_path.exists()` after the cargo run. -/
  outfileExists : Bool
  /-- First `fs::read_to_string(&outfile_path)`. -/
  readOutfile : IOResult String
  /-- `syn::parse_file` on the substituted content; `none` is `Err`. -/
  parse_file : String → Option SynFile
  /-- `edit::sanitize` (external module): in-place comment stripping. -/
  sanitize : SynFile → SynFile
  /-- `filter.apply_to(&syntax_tree)` (external module `opts`):
  the top-level items matching the selector. -/
  apply_to : String → SynFile → List String
  /-- `quote!(#syntax_tree).to_string()`. -/
  printFile : SynFile → String
  /-- `fs::write(&outfile_path, content)`. -/
  writeOutfile : String → IOResult Unit
  /-- `fmt::write_rustfmt_config(&outdir)`. -/
  write_rustfmt_config : IOResult Unit
  /-- One rustfmt invocation given the edition and current file content. -/
  rustfmt_run : Edition → String → FmtRes
  /-- Second `fs::read_to_string(&outfile_path)` (success/failure only;
  on success it yields the threaded scratch-file content). -/
  readBack : IOResult Unit

/-- Diagnostics `cargo_expand` writes to the error stream, in order. -/
inductive Diag
  | forwarded (line : String)
  | cannotExpandUgly (item : String)
  | cannotExpandNoRustfmt (item : String)
  | installRustfmtHint
  | rustcNoOutput
  | noSuchItem (item : String)
  | blank
deriving DecidableEq

/-- Observable outcome of one `cargo_expand` run: the returned exit code,
the diagnostics written to stderr, whether the cargo toolchain child was
spawned, the rustfmt editions attempted, and the text handed to the
presenter (`none` when the run ended before presenting). -/
structure RunOut where
  code : Int
  diags : List Diag
  ranCargo : Bool
  fmtAttempts : List Edition
  printed : Option String
deriving DecidableEq

/-- Tail of `cargo_expand`: the presenter writes one blank line to stderr
and renders `content`, ignoring rendering errors, then returns `Ok(0)`. -/
def finishPresent (base : List Diag) (attempts : List Edition) (content : String) : RunOut :=
  { code := 0
  , diags := base ++ [Diag.blank]
  , ranCargo := true
  , fmtAttempts := attempts
  , printed := some content }

/-- The `if let Some(rustfmt) = rustfmt` body after the content was
prepared (src/main.rs lines 207-228): write the scratch file, write the
rustfmt config, run the dialect-fallback attempts, read the scratch file
back and restore the crate-root token, then present. -/
def rustfmtStage (w : World) (base : List Diag) (content : String) : IOResult RunOut := do
  let _ ← w.writeOutfile content
  let _ ← w.write_rustfmt_config
  let (fileContent, attempts) := runFmtAttempts w.rustfmt_run content
  let _ ← w.readBack
  pure (finishPresent base attempts (restoreCrate fileContent))

/-- The pipeline of `cargo_expand` after the item/ugly/rustfmt guard
(src/main.rs lines 160-263), given the resolved `rustfmt` binary. -/
def expandWith (w : World) (rustfmt : Option String) : IOResult RunOut := do
  let fc ← filter_err ignore_cargo_err w.cargoSpawn
  let base := fc.1.map Diag.forwarded
  if !w.outfileExists then
    pure { code := 1, diags := base, ranCargo := true, fmtAttempts := [], printed := none }
  else do
    let content ← w.readOutfile
    if content.isEmpty then
      pure { code := if fc.2 == 0 then 1 else fc.2
           , diags := base ++ [Diag.rustcNoOutput]
           , ranCargo := true, fmtAttempts := [], printed := none }
    else
      match rustfmt with
      | none => pure (finishPresent base [] content)
      | some _ =>
        let content := substituteCrate content
        match w.parse_file content with
        | none => rustfmtStage w base content
        | some tree =>
          let tree := w.sanitize tree
          match w.args.item with
          | none => rustfmtStage w base (w.printFile tree)
          | some filt =>
            let tree := { tree with shebang := none, attrs := [] }
            let items := w.apply_to filt tree
            if items.isEmpty then
              pure { code := 1, diags := base ++ [Diag.noSuchItem filt]
                   , ranCargo := true, fmtAttempts := [], printed := none }
            else
              rustfmtStage w base (w.printFile { tree with items := items })

/-- `cargo_expand` from src/main.rs: theme listing, then the up-front
guard pairing the item selector with ugly mode and rustfmt availability,
then the expansion pipeline. -/
def cargo_expand (w : World) : IOResult RunOut :=
  if w.args.themes then
    .ok { code := 0, diags := [], ranCargo := false, fmtAttempts := [], printed := none }
  else
    match w.args.item, w.args.ugly with
    | some item, true =>
      .ok { code := 1, diags := [Diag.cannotExpandUgly item]
          , ranCargo := false, fmtAttempts := [], printed := none }
    | some item, false =>
      match w.which_rustfmt with
      | none =>
        .ok { code := 1, diags := [Diag.cannotExpandNoRustfmt item, Diag.installRustfmtHint]
            , ranCargo := false, fmtAttempts := [], printed := none }
      | some rf => expandWith w (some rf)
    | none, true => expandWith w none
    | none, false => expandWith w w.which_rustfmt

/-- The exit-code mapping of `main` (src/main.rs lines 41-50): a returned
code is passed to `process::exit`; a propagated error is printed and the
process exits 1. -/
def process_exit (r : IOResult RunOut) : Int :=
  match r with
  | .ok out => out.code
  | .error _ => 1

/-! ### Helper lemmas about the string primitives -/

/-- The characters of the crate-root token shared by `$crate` and its
stand-in. -/
def crateTail : List Char := ['c', 'r', 'a', 't', 'e']

/-- The characters of `$crate`. -/
def dollarChars : List Char := '$' :: crateTail

/-- The characters of the stand-in `Ξcrate`. -/
def placeChars : List Char := 'Ξ' :: crateTail

theorem listStartsWith_iff : ∀ (p l : List Char),
    listStartsWith p l = true ↔ ∃ t, l = p ++ t := by
  intro p
  induction p with
  | nil =>
    intro l
    simp [listStartsWith]
  | cons a ps ih =>
    intro l
    cases l with
    | nil =>
      simp [listStartsWith]
    | cons c cs =>
      simp only [listStartsWith, Bool.and_eq_true, beq_iff_eq, ih cs, List.cons_append,
        List.cons.injEq]
      constructor
      · rintro ⟨hac, t, ht⟩
        exact ⟨t, hac.symm, ht⟩
      · rintro ⟨t, hca, ht⟩
        exact ⟨hca.symm, t, ht⟩

theorem listStartsWith_refl_append (p t : List Char) :
    listStartsWith p (p ++ t) = true :=
  (listStartsWith_iff p (p ++ t)).mpr ⟨t, rfl⟩

theorem replAux_skip (pat rep : List Char) :
    ∀ (u l : List Char), replAux pat rep u.length (u ++ l) = replAux pat rep 0 l := by
  intro u
  induction u with
  | nil =>
    intro l
    rfl
  | cons a u ih =>
    intro l
    simpa [replAux] using ih l

theorem replAux_match (p0 : Char) (pt rep u : List Char) :
    replAux (p0 :: pt) rep 0 ((p0 :: pt) ++ u) = rep ++ replAux (p0 :: pt) rep 0 u := by
  have hsw : listStartsWith (p0 :: pt) (p0 :: (pt ++ u)) = true :=
    listStartsWith_refl_append (p0 :: pt) u
  show replAux (p0 :: pt) rep 0 (p0 :: (pt ++ u)) = _
  simpa [replAux, hsw] using congrArg (rep ++ ·) (replAux_skip (p0 :: pt) rep pt u)

theorem replAux_nomatch (pat rep : List Char) (c : Char) (rest : List Char)
    (h : listStartsWith pat (c :: rest) = false) :
    replAux pat rep 0 (c :: rest) = c :: replAux pat rep 0 rest := by
  simp [replAux, h]

theorem listContains_cons_false (pat : List Char) (c : Char) (r : List Char)
    (h : listContains (c :: r) pat = false) : listContains r pat = false := by
  simpa [listContains, Bool.or_eq_false_iff] using (Bool.or_eq_false_iff.mp (by simpa [listContains] using h)).2

theorem listContains_append_of_right (pat v y : List Char)
    (h : listContains y pat = true) : listContains (v ++ y) pat = true := by
  induction v with
  | nil => exact h
  | cons a v' ih => simp [listContains, ih]

theorem listContains_append_false (pat v y : List Char)
    (h : listContains (v ++ y) pat = false) : listContains y pat = false := by
  cases hy : listContains y pat with
  | false => rfl
  | true => rw [listContains_append_of_right pat v y hy] at h; exact absurd h (by simp)

theorem listContains_drop_clean (h0 : Char) (rt : List Char) :
    ∀ (v y : List Char), h0 ∉ v →
      listContains (v ++ y) (h0 :: rt) = true → listContains y (h0 :: rt) = true := by
  intro v
  induction v with
  | nil =>
    intro y _ h
    exact h
  | cons a v' ih =>
    intro y hv h
    rw [List.cons_append, listContains, Bool.or_eq_true] at h
    cases h with
    | inl h =>
      have ha : h0 = a := by
        rw [listStartsWith, Bool.and_eq_true, beq_iff_eq] at h
        exact h.1
      exact absurd (ha ▸ List.mem_cons_self a v') hv
    | inr h =>
      exact ih y (fun hm => hv (List.mem_cons_of_mem _ hm)) h

theorem startsWith_transfer (q0 h0 : Char) (qt rt : List Char) :
    ∀ (n : Nat) (x w : List Char), x.length ≤ n → h0 ∉ w →
      listStartsWith w (replAux (q0 :: qt) (h0 :: rt) 0 x) = true →
      listStartsWith w x = true := by
  intro n
  induction n with
  | zero =>
    intro x w hx hw h
    cases x with
    | nil =>
      cases w with
      | nil => rfl
      | cons a w' => exact absurd h (by simp [replAux, listStartsWith])
    | cons c r => exact absurd hx (by simp)
  | succ n ih =>
    intro x w hx hw h
    cases x with
    | nil =>
      cases w with
      | nil => rfl
      | cons a w' => exact absurd h (by simp [replAux, listStartsWith])
    | cons c r =>
      cases hsw : listStartsWith (q0 :: qt) (c :: r) with
      | true =>
        obtain ⟨u, hu⟩ := (listStartsWith_iff _ _).mp hsw
        rw [hu] at h ⊢
        rw [replAux_match] at h
        cases w with
        | nil => rfl
        | cons a w' =>
          have ha : a = h0 := by
            rw [List.cons_append, listStartsWith, Bool.and_eq_true, beq_iff_eq] at h
            exact h.1
          exact absurd (by rw [ha]; exact List.mem_cons_self h0 w' : h0 ∈ a :: w') hw
      | false =>
        rw [replAux_nomatch _ _ _ _ hsw] at h
        cases w with
        | nil => rfl
        | cons a w' =>
          rw [listStartsWith, Bool.and_eq_true] at h ⊢
          refine ⟨h.1, ?_⟩
          have hlen : r.length ≤ n := by
            simpa using Nat.le_of_succ_le_succ (by simpa using hx)
          exact ih r w' hlen (fun hm => hw (List.mem_cons_of_mem _ hm)) h.2

theorem roundtrip_aux : ∀ (n : Nat) (l : List Char), l.length ≤ n →
    listContains l placeChars = false →
    replAux placeChars dollarChars 0 (replAux dollarChars placeChars 0 l) = l := by
  intro n
  induction n with
  | zero =>
    intro l hl _
    cases l with
    | nil => rfl
    | cons c r => exact absurd hl (by simp)
  | succ n ih =>
    intro l hl hnc
    cases l with
    | nil => rfl
    | cons c r =>
      cases hsw : listStartsWith dollarChars (c :: r) with
      | true =>
        obtain ⟨u, hu⟩ := (listStartsWith_iff _ _).mp hsw
        rw [hu] at hnc hl ⊢
        have m1 : replAux dollarChars placeChars 0 (dollarChars ++ u) =
            placeChars ++ replAux dollarChars placeChars 0 u :=
          replAux_match '$' crateTail placeChars u
        have m2 : replAux placeChars dollarChars 0
              (placeChars ++ replAux dollarChars placeChars 0 u) =
            dollarChars ++ replAux placeChars dollarChars 0
              (replAux dollarChars placeChars 0 u) :=
          replAux_match 'Ξ' crateTail dollarChars _
        have hulen : u.length ≤ n := by
          have := hl
          rw [List.length_append] at this
          simp [dollarChars, crateTail] at this
          omega
        rw [m1, m2, ih u hulen (listContains_append_false _ _ _ hnc)]
      | false =>
        have hr : listContains r placeChars = false := listContains_cons_false _ _ _ hnc
        have hsw' : listStartsWith placeChars
            (c :: replAux dollarChars placeChars 0 r) = false := by
          cases hq : listStartsWith placeChars (c :: replAux dollarChars placeChars 0 r) with
          | false => rfl
          | true =>
            rw [show placeChars = 'Ξ' :: crateTail from rfl, listStartsWith,
              Bool.and_eq_true, beq_iff_eq] at hq
            have ht : listStartsWith crateTail r = true :=
              startsWith_transfer '$' 'Ξ' crateTail crateTail r.length r crateTail
                le_rfl (by decide) hq.2
            have hcontra : listContains (c :: r) placeChars = true := by
              rw [listContains, Bool.or_eq_true]
              left
              rw [show placeChars = 'Ξ' :: crateTail from rfl, listStartsWith,
                Bool.and_eq_true, beq_iff_eq]
              exact ⟨hq.1, ht⟩
            rw [hcontra] at hnc
            exact absurd hnc (by simp)
        rw [replAux_nomatch _ _ _ _ hsw, replAux_nomatch _ _ _ _ hsw',
          ih r (Nat.le_of_succ_le_succ (by simpa using hl)) hr]

theorem restore_no_placeholder_aux : ∀ (n : Nat) (s : List Char), s.length ≤ n →
    listContains (replAux placeChars dollarChars 0 s) placeChars = false := by
  intro n
  induction n with
  | zero =>
    intro s hs
    cases s with
    | nil => rfl
    | cons c r => exact absurd hs (by simp)
  | succ n ih =>
    intro s hs
    cases s with
    | nil => rfl
    | cons c r =>
      cases hsw : listStartsWith placeChars (c :: r) with
      | true =>
        obtain ⟨u, hu⟩ := (listStartsWith_iff _ _).mp hsw
        rw [hu] at hs ⊢
        have m : replAux placeChars dollarChars 0 (placeChars ++ u) =
            dollarChars ++ replAux placeChars dollarChars 0 u :=
          replAux_match 'Ξ' crateTail dollarChars u
        rw [m]
        have hulen : u.length ≤ n := by
          rw [List.length_append] at hs
          simp [placeChars, crateTail] at hs
          omega
        cases hq : listContains
            (dollarChars ++ replAux placeChars dollarChars 0 u) placeChars with
        | false => rfl
        | true =>
          have hdrop : listContains (replAux placeChars dollarChars 0 u) placeChars = true :=
            listContains_drop_clean 'Ξ' crateTail dollarChars _ (by decide) hq
          rw [ih u hulen] at hdrop
          exact absurd hdrop (by simp)
      | false =>
        rw [replAux_nomatch _ _ _ _ hsw]
        have hrec := ih r (Nat.le_of_succ_le_succ (by simpa using hs))
        cases hq : listContains (c :: replAux placeChars dollarChars 0 r) placeChars with
        | false => rfl
        | true =>
          rw [listContains, Bool.or_eq_true] at hq
          cases hq with
          | inr hq => rw [hrec] at hq; exact absurd hq (by simp)
          | inl hq =>
            rw [show placeChars = 'Ξ' :: crateTail from rfl, listStartsWith,
              Bool.and_eq_true, beq_iff_eq] at hq
            have ht : listStartsWith crateTail r = true :=
              startsWith_transfer 'Ξ' '$' crateTail crateTail r.length r crateTail
                le_rfl (by decide) hq.2
            have : listStartsWith placeChars (c :: r) = true := by
              rw [show placeChars = 'Ξ' :: crateTail from rfl, listStartsWith,
                Bool.and_eq_true, beq_iff_eq]
              exact ⟨hq.1, ht⟩
            rw [this] at hsw
            exact absurd hsw (by simp)

theorem drainLines_map_ok (lines : List String) :
    drainLines (lines.map Except.ok) = lines := by
  induction lines with
  | nil => rfl
  | cons a ls ih => simp [drainLines, ih]

theorem drainLines_read_error (ls : List String) (e : String)
    (rest : List (IOResult String)) :
    drainLines (ls.map Except.ok ++ Except.error e :: rest) = ls := by
  induction ls with
  | nil => rfl
  | cons a ls ih => simp [drainLines, ih]

/-! ### Claim theorems -/

/-- Claim C7: the toolchain probe is optimistic.  `definitely_not_nightly`
returns true exactly when the version subprocess succeeded, its stdout
decoded to text, and that text matches the stable signature (starts with
"cargo 1") while lacking the "nightly" marker; a failed invocation or an
undecodable output makes `maybe_nightly` true. -/
theorem probe_optimistic :
    maybe_nightly ⟨none⟩ = true ∧
    maybe_nightly ⟨some none⟩ = true ∧
    ∀ v : String, definitely_not_nightly ⟨some (some v)⟩ = true ↔
      (strStartsWith v "cargo 1" = true ∧ strContains v "nightly" = false) := by
  refine ⟨rfl, rfl, fun v => ?_⟩
  simp [definitely_not_nightly]

/-- Claim C2: `ignore_cargo_err` holds exactly for blank lines and lines
containing an allow-listed substring, and `filter_err` forwards precisely
the non-ignored lines, verbatim and in their original order. -/
theorem diagnostic_filter_spec :
    (∀ line : String, ignore_cargo_err line = true ↔
      (strBlank line = true ∨ ∃ s ∈ discarded_lines, strContains line s = true))
  ∧ (∀ (lines : List String) (wt : Option Int),
      filter_err ignore_cargo_err (.ok ⟨lines.map Except.ok, .ok wt⟩) =
        .ok (lines.filter (fun l => !ignore_cargo_err l), wt.getD 1)) := by
  constructor
  · intro line
    unfold ignore_cargo_err
    cases hb : strBlank line <;> simp [hb, List.any_eq_true]
  · intro lines wt
    simp [filter_err, drainLines_map_ok, bind, Except.bind, Functor.map, Except.map, pure, Except.pure]

/-- Claim C4: the reformatter makes at most two attempts: the first
requests the 2018 dialect; exactly when that invocation ran and exited
unsuccessfully, a single retry requests the 2015 dialect; there is never
a third attempt, and the content left in the scratch file after the
attempts is the final text regardless of the retry outcome. -/
theorem rustfmt_dialect_fallback (fmt : Edition → String → FmtRes) (content : String) :
    (fmt Edition.e2018 content = FmtRes.spawnErr ∧
      runFmtAttempts fmt content = (content, [Edition.e2018])) ∨
    (∃ c1, fmt Edition.e2018 content = FmtRes.ran true c1 ∧
      runFmtAttempts fmt content = (c1, [Edition.e2018])) ∨
    (∃ c1, fmt Edition.e2018 content = FmtRes.ran false c1 ∧
      ((fmt Edition.e2015 c1 = FmtRes.spawnErr ∧
          runFmtAttempts fmt content = (c1, [Edition.e2018, Edition.e2015])) ∨
        (∃ b c2, fmt Edition.e2015 c1 = FmtRes.ran b c2 ∧
          runFmtAttempts fmt content = (c2, [Edition.e2018, Edition.e2015])))) := by
  cases h1 : fmt Edition.e2018 content with
  | spawnErr =>
    exact Or.inl ⟨rfl, by simp [runFmtAttempts, h1]⟩
  | ran success c1 =>
    cases success with
    | true =>
      exact Or.inr (Or.inl ⟨c1, rfl, by simp [runFmtAttempts, h1]⟩)
    | false =>
      refine Or.inr (Or.inr ⟨c1, rfl, ?_⟩)
      cases h2 : fmt Edition.e2015 c1 with
      | spawnErr =>
        exact Or.inl ⟨rfl, by simp [runFmtAttempts, h1, h2]⟩
      | ran b c2 =>
        exact Or.inr ⟨b, c2, rfl, by simp [runFmtAttempts, h1, h2]⟩

/-- Claim C1: after a successful parse, when the selector matches zero
top-level items, the run is a hard failure: exit code 1, with a
no-such-item diagnostic naming the selector written to the error
stream. -/
theorem no_such_item_hard_failure (w : World) (item rf content : String) (tree : SynFile)
    (fwd : List String) (code : Int)
    (hthemes : w.args.themes = false)
    (hitem : w.args.item = some item)
    (hugly : w.args.ugly = false)
    (hrf : w.which_rustfmt = some rf)
    (hcargo : filter_err ignore_cargo_err w.cargoSpawn = .ok (fwd, code))
    (hex : w.outfileExists = true)
    (hread : w.readOutfile = .ok content)
    (hne : content.isEmpty = false)
    (hparse : w.parse_file (substituteCrate content) = some tree)
    (hempty : w.apply_to item { w.sanitize tree with shebang := none, attrs := [] } = []) :
    cargo_expand w =
      .ok { code := 1, diags := fwd.map Diag.forwarded ++ [Diag.noSuchItem item]
            , ranCargo := true, fmtAttempts := [], printed := none }
    ∧ process_exit (cargo_expand w) = 1 := by
  have h : cargo_expand w =
      .ok { code := 1, diags := fwd.map Diag.forwarded ++ [Diag.noSuchItem item]
            , ranCargo := true, fmtAttempts := [], printed := none } := by
    simp [cargo_expand, expandWith, hthemes, hitem, hugly, hrf, hcargo, hex, hread, hne,
      hparse, hempty, bind, Except.bind, pure, Except.pure]
  exact ⟨h, by rw [h]; rfl⟩

/-- World for the C1 witness: the selector `c` resolves to no item. -/
def wC1 : World :=
  { args := { themes := false, item := some "c", ugly := false }
  , which_rustfmt := some "rustfmt"
  , cargoSpawn := .ok ⟨[], .ok (some 0)⟩
  , outfileExists := true
  , readOutfile := .ok "fn a ( ) { } fn b ( ) { }"
  , parse_file := fun _ => some ⟨none, [], ["fn a", "fn b"]⟩
  , sanitize := id
  , apply_to := fun _ _ => []
  , printFile := fun t => String.join t.items
  , writeOutfile := fun _ => .ok ()
  , write_rustfmt_config := .ok ()
  , rustfmt_run := fun _ c => FmtRes.ran true c
  , readBack := .ok () }

theorem no_such_item_hard_failure_applied :
    cargo_expand wC1 =
      .ok { code := 1, diags := [Diag.noSuchItem "c"]
            , ranCargo := true, fmtAttempts := [], printed := none }
    ∧ process_exit (cargo_expand wC1) = 1 :=
  no_such_item_hard_failure wC1 "c" "rustfmt" "fn a ( ) { } fn b ( ) { }"
    ⟨none, [], ["fn a", "fn b"]⟩ [] 0 rfl rfl rfl rfl rfl rfl rfl rfl rfl rfl

/-- Claim C3 counterexample: the round-trip property quantified over
every input text fails on the program.  The expanded text `Ξcrate`
contains the token `$crate` zero times, the parse step fails (so the
pipeline is content-preserving) and the formatter succeeds leaving the
scratch file untouched, yet the final presented text is `$crate` —
one occurrence appeared out of nowhere, at the position of the stand-in
the input happened to contain. -/
def wC3 : World :=
  { args := { themes := false, item := none, ugly := false }
  , which_rustfmt := some "rustfmt"
  , cargoSpawn := .ok ⟨[], .ok (some 0)⟩
  , outfileExists := true
  , readOutfile := .ok "Ξcrate"
  , parse_file := fun _ => none
  , sanitize := id
  , apply_to := fun _ _ => []
  , printFile := fun t => String.join t.items
  , writeOutfile := fun _ => .ok ()
  , write_rustfmt_config := .ok ()
  , rustfmt_run := fun _ c => FmtRes.ran true c
  , readBack := .ok () }

theorem crate_placeholder_counterexample :
    wC3.readOutfile = .ok "Ξcrate"
    ∧ countOccur "$crate".data "Ξcrate".data = 0
    ∧ cargo_expand wC3 =
        .ok { code := 0, diags := [Diag.blank], ranCargo := true
              , fmtAttempts := [Edition.e2018], printed := some "$crate" }
    ∧ countOccur "$crate".data "$crate".data = 1 :=
  ⟨rfl, by decide, rfl, by decide⟩

/-- Claim C3 (amended): for every input text that does not already
contain the stand-in identifier, substitute-then-restore is an exact
round trip (so the token's occurrence count and positions are preserved
whenever the intermediate processing preserves the substituted text);
the stand-in never appears in any restored output; and the stand-in has
the same character width as the token it replaces. -/
theorem crate_placeholder_roundtrip :
    (∀ t : String, strContains t DOLLAR_CRATE_PLACEHOLDER = false →
      restoreCrate (substituteCrate t) = t)
    ∧ (∀ s : String, strContains (restoreCrate s) DOLLAR_CRATE_PLACEHOLDER = false)
    ∧ DOLLAR_CRATE_PLACEHOLDER.length = "$crate".length := by
  refine ⟨?_, ?_, rfl⟩
  · intro t h
    have h' : listContains t.data placeChars = false := h
    have hrt := roundtrip_aux t.data.length t.data le_rfl h'
    show (⟨replAux placeChars dollarChars 0 (replAux dollarChars placeChars 0 t.data)⟩ :
      String) = t
    rw [hrt]
  · intro s
    exact restore_no_placeholder_aux s.data.length s.data le_rfl

theorem crate_placeholder_roundtrip_applied :
    restoreCrate (substituteCrate "impl $crate::Foo for $crate::Bar") =
      "impl $crate::Foo for $crate::Bar" :=
  crate_placeholder_roundtrip.1 "impl $crate::Foo for $crate::Bar" (by decide)

/-- Claim C5: when the toolchain child has terminated and the expanded
output file exists but is empty, the run reports that no expanded output
was produced and returns 1 when the toolchain exited 0, or the
toolchain's own non-zero code otherwise. -/
theorem empty_output_reported (w : World) (rustfmt : Option String)
    (fwd : List String) (code : Int)
    (hcargo : filter_err ignore_cargo_err w.cargoSpawn = .ok (fwd, code))
    (hex : w.outfileExists = true)
    (hread : w.readOutfile = .ok "") :
    expandWith w rustfmt =
      .ok { code := if code == 0 then 1 else code
            , diags := fwd.map Diag.forwarded ++ [Diag.rustcNoOutput]
            , ranCargo := true, fmtAttempts := [], printed := none } := by
  simp [expandWith, hcargo, hex, hread, bind, Except.bind, pure, Except.pure,
    show "".isEmpty = true from rfl]

/-- World for the C5 witness: the toolchain exits 7 leaving an empty
outfile. -/
def wC5 : World :=
  { args := { themes := false, item := none, ugly := false }
  , which_rustfmt := none
  , cargoSpawn := .ok ⟨[], .ok (some 7)⟩
  , outfileExists := true
  , readOutfile := .ok ""
  , parse_file := fun _ => none
  , sanitize := id
  , apply_to := fun _ _ => []
  , printFile := fun t => String.join t.items
  , writeOutfile := fun _ => .ok ()
  , write_rustfmt_config := .ok ()
  , rustfmt_run := fun _ c => FmtRes.ran true c
  , readBack := .ok () }

theorem empty_output_reported_applied :
    expandWith wC5 none =
      .ok { code := 7, diags := [Diag.rustcNoOutput]
            , ranCargo := true, fmtAttempts := [], printed := none } :=
  empty_output_reported wC5 none [] 7 rfl rfl rfl

/-- Claim C6: the incompatible-mode guards run before the toolchain is
invoked (the outcome is fixed with `ranCargo = false`, independent of
every toolchain-related oracle field): a selector together with ugly
mode is a hard error, a selector without a resolvable formatter is a
hard error, and without a selector a missing formatter merely disables
reformatting. -/
theorem mode_guard_checked_up_front (w : World) (hthemes : w.args.themes = false) :
    (∀ item, w.args.item = some item → w.args.ugly = true →
      cargo_expand w =
        .ok { code := 1, diags := [Diag.cannotExpandUgly item]
              , ranCargo := false, fmtAttempts := [], printed := none })
    ∧ (∀ item, w.args.item = some item → w.args.ugly = false → w.which_rustfmt = none →
      cargo_expand w =
        .ok { code := 1, diags := [Diag.cannotExpandNoRustfmt item, Diag.installRustfmtHint]
              , ranCargo := false, fmtAttempts := [], printed := none })
    ∧ (w.args.item = none →
      cargo_expand w = expandWith w (if w.args.ugly then none else w.which_rustfmt)) := by
  refine ⟨?_, ?_, ?_⟩
  · intro item hi hu
    simp [cargo_expand, hthemes, hi, hu]
  · intro item hi hu hr
    simp [cargo_expand, hthemes, hi, hu, hr]
  · intro hi
    cases hu : w.args.ugly <;> simp [cargo_expand, hthemes, hi, hu]

/-- World for the C6 witness: selector `b` requested together with ugly
mode. -/
def wC6 : World :=
  { args := { themes := false, item := some "b", ugly := true }
  , which_rustfmt := some "rustfmt"
  , cargoSpawn := .ok ⟨[], .ok (some 0)⟩
  , outfileExists := true
  , readOutfile := .ok "fn b ( ) { }"
  , parse_file := fun _ => none
  , sanitize := id
  , apply_to := fun _ _ => []
  , printFile := fun t => String.join t.items
  , writeOutfile := fun _ => .ok ()
  , write_rustfmt_config := .ok ()
  , rustfmt_run := fun _ c => FmtRes.ran true c
  , readBack := .ok () }

theorem mode_guard_checked_up_front_applied :
    cargo_expand wC6 =
      .ok { code := 1, diags := [Diag.cannotExpandUgly "b"]
            , ranCargo := false, fmtAttempts := [], printed := none } :=
  (mode_guard_checked_up_front wC6 rfl).1 "b" rfl rfl

/-- Claim C8 counterexample: the toolchain fails outright with exit code
101 and (as is typical for an outright failure) leaves no output file;
the run exits 1, not 101 — the toolchain's code is not propagated in this
case. -/
def wC8 : World :=
  { args := { themes := false, item := none, ugly := true }
  , which_rustfmt := none
  , cargoSpawn := .ok ⟨[], .ok (some 101)⟩
  , outfileExists := false
  , readOutfile := .error "no such file"
  , parse_file := fun _ => none
  , sanitize := id
  , apply_to := fun _ _ => []
  , printFile := fun t => String.join t.items
  , writeOutfile := fun _ => .ok ()
  , write_rustfmt_config := .ok ()
  , rustfmt_run := fun _ c => FmtRes.ran true c
  , readBack := .ok () }

theorem toolchain_code_not_propagated :
    wC8.cargoSpawn = .ok ⟨[], .ok (some 101)⟩
    ∧ cargo_expand wC8 =
        .ok { code := 1, diags := [], ranCargo := true, fmtAttempts := [], printed := none }
    ∧ process_exit (cargo_expand wC8) = 1
    ∧ ¬ ((1 : Int) = 101) :=
  ⟨rfl, rfl, rfl, by decide⟩

/-- Claim C8 (amended): success exits 0 and generic failures exit 1; the
toolchain's non-zero code is propagated exactly in the case where the
output file exists but is empty; when the output file does not exist the
run exits 1 regardless of the toolchain's code. -/
theorem exit_code_policy (w : World) (rustfmt : Option String)
    (fwd : List String) (code : Int)
    (hcargo : filter_err ignore_cargo_err w.cargoSpawn = .ok (fwd, code)) :
    (w.outfileExists = false →
      expandWith w rustfmt =
        .ok { code := 1, diags := fwd.map Diag.forwarded
              , ranCargo := true, fmtAttempts := [], printed := none })
    ∧ (w.outfileExists = true → w.readOutfile = .ok "" →
      process_exit (expandWith w rustfmt) = if code == 0 then 1 else code)
    ∧ (∀ out : RunOut, process_exit (.ok out) = out.code)
    ∧ (∀ e : String, process_exit (.error e) = 1) := by
  refine ⟨?_, ?_, fun _ => rfl, fun _ => rfl⟩
  · intro hex
    simp [expandWith, hcargo, hex, bind, Except.bind, pure, Except.pure]
  · intro hex hread
    rw [empty_output_reported w rustfmt fwd code hcargo hex hread]
    rfl

theorem exit_code_policy_applied :
    expandWith wC8 none =
      .ok { code := 1, diags := [], ranCargo := true, fmtAttempts := [], printed := none } :=
  (exit_code_policy wC8 none [] 101 rfl).1 rfl

/-- Claim C9 counterexample: a read error on the diagnostic channel in
the middle of the stream does not propagate: `filter_err` still returns
`Ok` with the child's exit code, silently dropping the line that came
after the failing read. -/
def childC9 : ChildProc :=
  ⟨[.ok "error: real", .error "broken pipe", .ok "late"], .ok (some 0)⟩

theorem read_error_not_propagated :
    filter_err ignore_cargo_err (.ok childC9) = .ok (["error: real"], 0) := rfl

/-- Claim C9 (amended): an I/O error while spawning the child or while
waiting for it propagates as a hard error to the orchestrator (exit code
1) and is never retried; but an I/O error while reading the diagnostic
channel does not propagate — it silently ends the draining loop,
dropping the remaining diagnostics. -/
theorem io_error_policy :
    (∀ e : String, filter_err ignore_cargo_err (.error e) = .error e)
    ∧ (∀ (e : String) (reads : List (IOResult String)),
      filter_err ignore_cargo_err (.ok ⟨reads, .error e⟩) = .error e)
    ∧ (∀ (ls : List String) (e : String) (rest : List (IOResult String)),
      drainLines (ls.map Except.ok ++ Except.error e :: rest) = ls)
    ∧ (∀ (w : World) (rustfmt : Option String) (e : String), w.cargoSpawn = .error e →
      expandWith w rustfmt = .error e)
    ∧ (∀ e : String, process_exit (.error e) = 1) := by
  refine ⟨fun _ => rfl, fun _ _ => rfl, drainLines_read_error, ?_, fun _ => rfl⟩
  intro w rustfmt e he
  simp [expandWith, filter_err, he, bind, Except.bind]

/-- World for the C9 witness: spawning the toolchain child fails. -/
def wC9 : World :=
  { args := { themes := false, item := none, ugly := false }
  , which_rustfmt := none
  , cargoSpawn := .error "spawn failed"
  , outfileExists := false
  , readOutfile := .error "no such file"
  , parse_file := fun _ => none
  , sanitize := id
  , apply_to := fun _ _ => []
  , printFile := fun t => String.join t.items
  , writeOutfile := fun _ => .ok ()
  , write_rustfmt_config := .ok ()
  , rustfmt_run := fun _ c => FmtRes.ran true c
  , readBack := .ok () }

theorem io_error_policy_applied :
    expandWith wC9 none = .error "spawn failed" :=
  io_error_policy.2.2.2.1 wC9 none "spawn failed" rfl

/-- Claim C10: when structured parsing of the (substituted) expanded text
fails while an item selector was supplied, the selector is silently
ignored: the full substituted text goes through the reformatting stage,
the run exits 0, and no no-such-item diagnostic is emitted. -/
theorem parse_failure_skips_selector (w : World) (item rf content : String)
    (fwd : List String) (code : Int)
    (hthemes : w.args.themes = false)
    (hitem : w.args.item = some item)
    (hugly : w.args.ugly = false)
    (hrf : w.which_rustfmt = some rf)
    (hcargo : filter_err ignore_cargo_err w.cargoSpawn = .ok (fwd, code))
    (hex : w.outfileExists = true)
    (hread : w.readOutfile = .ok content)
    (hne : content.isEmpty = false)
    (hparse : w.parse_file (substituteCrate content) = none)
    (hwrite : w.writeOutfile (substituteCrate content) = .ok ())
    (hconf : w.write_rustfmt_config = .ok ())
    (hback : w.readBack = .ok ()) :
    cargo_expand w =
      .ok (finishPresent (fwd.map Diag.forwarded)
            (runFmtAttempts w.rustfmt_run (substituteCrate content)).2
            (restoreCrate (runFmtAttempts w.rustfmt_run (substituteCrate content)).1))
    ∧ process_exit (cargo_expand w) = 0
    ∧ ∀ i, Diag.noSuchItem i ∉
        (finishPresent (fwd.map Diag.forwarded)
          (runFmtAttempts w.rustfmt_run (substituteCrate content)).2
          (restoreCrate (runFmtAttempts w.rustfmt_run (substituteCrate content)).1)).diags := by
  have h : cargo_expand w =
      .ok (finishPresent (fwd.map Diag.forwarded)
            (runFmtAttempts w.rustfmt_run (substituteCrate content)).2
            (restoreCrate (runFmtAttempts w.rustfmt_run (substituteCrate content)).1)) := by
    simp [cargo_expand, expandWith, rustfmtStage, hthemes, hitem, hugly, hrf, hcargo, hex,
      hread, hne, hparse, hwrite, hconf, hback, bind, Except.bind, pure, Except.pure]
  refine ⟨h, by rw [h]; rfl, ?_⟩
  intro i
  simp [finishPresent]

/-- World for the C10 witness: selector `b` supplied but the expanded
text fails to parse. -/
def wC10 : World :=
  { args := { themes := false, item := some "b", ugly := false }
  , which_rustfmt := some "rustfmt"
  , cargoSpawn := .ok ⟨[], .ok (some 0)⟩
  , outfileExists := true
  , readOutfile := .ok "not rust ; $crate"
  , parse_file := fun _ => none
  , sanitize := id
  , apply_to := fun _ _ => []
  , printFile := fun t => String.join t.items
  , writeOutfile := fun _ => .ok ()
  , write_rustfmt_config := .ok ()
  , rustfmt_run := fun _ c => FmtRes.ran true c
  , readBack := .ok () }

theorem parse_failure_skips_selector_applied :
    cargo_expand wC10 =
      .ok (finishPresent []
            (runFmtAttempts wC10.rustfmt_run (substituteCrate "not rust ; $crate")).2
            (restoreCrate
              (runFmtAttempts wC10.rustfmt_run (substituteCrate "not rust ; $crate")).1))
    ∧ process_exit (cargo_expand wC10) = 0
    ∧ ∀ i, Diag.noSuchItem i ∉
        (finishPresent []
          (runFmtAttempts wC10.rustfmt_run (substituteCrate "not rust ; $crate")).2
          (restoreCrate
            (runFmtAttempts wC10.rustfmt_run (substituteCrate "not rust ; $crate")).1)).diags :=
  parse_failure_skips_selector wC10 "b" "rustfmt" "not rust ; $crate" [] 0
    rfl rfl rfl rfl rfl rfl rfl rfl rfl rfl rfl rfl

end CargoExpand
